import Mathlib

/-!
Verification of the batch document-processing queue of the Recursos Suop
repository.  The definitions below are a shallow embedding of the renamer
feature of `src/App.tsx` (the sequential `processQueue` engine with quota
cooldown and an abort ref), its control surface (`handleUnlock`,
`handleUpdate`, `handleDelete`, `executeClearAll`, `handleRetryProcessing`)
and the filename projection of the download handler.  Opaque browser values
(`File` blobs, ids) are represented by natural-number tokens; the shared
mutable `files` React state is threaded explicitly; the `abortProcessingRef`
is read through a clock-indexed schedule so that a cancellation happening at
an arbitrary moment of the run can be reasoned about.
-/

namespace RecursosSuop

/-- Status enumeration `AnalysisStatus` from `src/types.ts`. -/
inductive AnalysisStatus
  | IDLE
  | PROCESSING
  | COMPLETE
  | ERROR
  | WAITING_PASSWORD
deriving DecidableEq, Repr

/-- Record `ExtractedData` from `src/types.ts`, extended with the optional
`docNumber` field that the extractor (`services/geminiService.ts`) returns
and the download handler consumes. -/
structure ExtractedData where
  date : String
  beneficiary : String
  value : String
  originalValue : String
  docNumber : Option String := none
  explanation : Option String := none
deriving DecidableEq, Repr

/-- Record `AnalyzedFile` from `src/types.ts`.  The blob is an opaque token. -/
structure AnalyzedFile where
  id : Nat
  file : Nat
  originalName : String
  docType : String
  status : AnalysisStatus
  data : Option ExtractedData
  errorMessage : Option String := none
deriving DecidableEq, Repr

/-- Substring test, modelling JavaScript `String.prototype.includes`. -/
def strIncludes (s pat : String) : Bool :=
  decide (pat.data <:+: s.data)

/-- Character-wise lower-casing, modelling `String.prototype.toLowerCase`. -/
def toLowerCase (s : String) : String :=
  String.mk (s.data.map Char.toLower)

/-- Character-wise upper-casing, modelling `String.prototype.toUpperCase`. -/
def toUpperCase (s : String) : String :=
  String.mk (s.data.map Char.toUpper)

/-- Whitespace trimming at both ends, modelling `String.prototype.trim`. -/
def trimString (s : String) : String :=
  String.mk (((s.data.dropWhile Char.isWhitespace).reverse.dropWhile
    Char.isWhitespace).reverse)

/-- The quota / rate-limit classifier of `processQueue`
(`src/App.tsx`): the message, lower-cased, contains `quota` or `exceeded`,
or contains `429`. -/
def isQuotaMessage (msg : String) : Bool :=
  strIncludes (toLowerCase msg) "quota" || strIncludes msg "429" ||
    strIncludes (toLowerCase msg) "exceeded"

/-- Result of one `analyzeDocument` call, as observed by the queue. -/
inductive ExtractResult
  | success (d : ExtractedData)
  | failure (msg : String)
deriving DecidableEq, Repr

/-- The local variables `status`, `errorMessage`, `isQuotaError` computed in
the `catch` branch of `processQueue`. -/
structure FailureClass where
  status : AnalysisStatus
  errorMessage : String
  isQuotaError : Bool
deriving DecidableEq, Repr

/-- The JS fallback `error.message || "Falha na análise"` (the empty string is falsy). -/
def fallbackMessage (msg : String) : String :=
  if msg = "" then "Falha na análise" else msg

/-- The error classification performed in the `catch` branch of
`processQueue` (`src/App.tsx`): a distinguished password signal, then the
quota substring test, otherwise a generic error. -/
def classifyFailure (msg : String) : FailureClass :=
  if msg = "PASSWORD_REQUIRED" then
    { status := AnalysisStatus.WAITING_PASSWORD, errorMessage := "", isQuotaError := false }
  else if isQuotaMessage (fallbackMessage msg) then
    { status := AnalysisStatus.ERROR, errorMessage := "Pausado: Limite da API atingido.",
      isQuotaError := true }
  else
    { status := AnalysisStatus.ERROR, errorMessage := fallbackMessage msg, isQuotaError := false }

/-- Whether an extraction outcome is classified as a quota error by the
engine. -/
def outcomeIsQuota : ExtractResult → Bool
  | ExtractResult.success _ => false
  | ExtractResult.failure msg => (classifyFailure msg).isQuotaError

/-- The `setFiles` update marking the dequeued item `PROCESSING`. -/
def applyProcessingUpdate (i : Nat) (files : List AnalyzedFile) : List AnalyzedFile :=
  files.map fun f => if f.id = i then { f with status := AnalysisStatus.PROCESSING } else f

/-- The `setFiles` update of the success branch: status `COMPLETE`, `data`
populated; the other fields are spread from the previous item unchanged. -/
def applySuccessUpdate (i : Nat) (d : ExtractedData) (files : List AnalyzedFile) :
    List AnalyzedFile :=
  files.map fun f =>
    if f.id = i then { f with status := AnalysisStatus.COMPLETE, data := some d } else f

/-- The `setFiles` update of the failure branch: the quota case parks the
item back at `IDLE`, otherwise the classified status is written; the message
is stored exactly when the classified status is `ERROR`. -/
def applyFailureUpdate (i : Nat) (c : FailureClass) (files : List AnalyzedFile) :
    List AnalyzedFile :=
  files.map fun f =>
    if f.id = i then
      { f with
        status := if c.isQuotaError then AnalysisStatus.IDLE else c.status,
        errorMessage :=
          if c.status = AnalysisStatus.ERROR then some c.errorMessage else none }
    else f

/-- The renamer-level React state bundle: the item list and the three
boolean flags (`isProcessing`, `isCooldown`, `unlockNotification`). -/
structure QueueState where
  files : List AnalyzedFile
  isProcessing : Bool
  isCooldown : Bool
  unlockNotification : Bool
deriving DecidableEq, Repr

/-- Observable per-item events of one run: the moment `analyzeDocument` is
invoked for an item, and the moment its outcome update is applied to the
item set. -/
inductive QueueEvent
  | dispatch (i : Nat)
  | applied (i : Nat)
deriving DecidableEq, Repr

/-- Accumulated run data: the live state, the dispatch/application trace,
the clock times at which an item-set mutation was actually applied, the
sampling clock, and the cooldown timer scheduled by the quota branch. -/
structure RunAcc where
  st : QueueState
  trace : List QueueEvent
  mutTimes : List Nat
  clock : Nat
  timerMs : Option Nat
deriving DecidableEq, Repr

/-- A guarded `setFiles` call: the abort ref is sampled inside the setter;
if it is set the update is dropped, otherwise the item-set update is applied
and the mutation time recorded.  Either way the sampling clock advances. -/
def guardedUpdate (sched : Nat → Bool) (upd : List AnalyzedFile → List AnalyzedFile)
    (ev : List QueueEvent) (a : RunAcc) : RunAcc :=
  if sched a.clock then { a with clock := a.clock + 1 }
  else
    { a with
      st := { a.st with files := upd a.st.files },
      trace := a.trace ++ ev,
      mutTimes := a.mutTimes ++ [a.clock],
      clock := a.clock + 1 }

/-- Dispatch of `analyzeDocument` for one item and the handling of its
outcome, from the `try`/`catch` body of the sequential loop.  Returns the
new accumulator, whether the run terminates here, and whether `abortQueue`
was set (the quota case). -/
def dispatchOutcome (sched : Nat → Bool) (oracle : Nat → ExtractResult)
    (fileItem : AnalyzedFile) (a : RunAcc) : RunAcc × Bool × Bool :=
  let a := { a with trace := a.trace ++ [QueueEvent.dispatch fileItem.id] }
  match oracle fileItem.id with
  | ExtractResult.success d =>
    if sched a.clock then ({ a with clock := a.clock + 1 }, true, false)
    else
      let a := guardedUpdate sched (applySuccessUpdate fileItem.id d)
        [QueueEvent.applied fileItem.id] { a with clock := a.clock + 1 }
      (a, false, false)
  | ExtractResult.failure msg =>
    if sched a.clock then ({ a with clock := a.clock + 1 }, true, false)
    else
      let c := classifyFailure msg
      let a := guardedUpdate sched (applyFailureUpdate fileItem.id c)
        [QueueEvent.applied fileItem.id] { a with clock := a.clock + 1 }
      if c.isQuotaError then
        ({ a with
            st := { a.st with isProcessing := false, isCooldown := true },
            timerMs := some 15000 }, true, true)
      else (a, false, false)

/-- The sequential `for` loop of `processQueue`: abort check at the loop
head, `PROCESSING` marking, pacing delay with abort checks on the non-first
items, extraction dispatch and outcome handling, then the normal run end
that lowers `isProcessing` and raises the ready notification. -/
def runLoop (sched : Nat → Bool) (oracle : Nat → ExtractResult) :
    List AnalyzedFile → Bool → Bool → RunAcc → RunAcc
  | [], abortQueue, _, a =>
    if sched a.clock then { a with clock := a.clock + 1 }
    else
      { a with
        clock := a.clock + 1,
        st := { a.st with
          isProcessing := false,
          unlockNotification := if abortQueue then a.st.unlockNotification else true } }
  | fileItem :: rest, abortQueue, isFirst, a =>
    if abortQueue || sched a.clock then { a with clock := a.clock + 1 }
    else
      let a1 := guardedUpdate sched (applyProcessingUpdate fileItem.id) []
        { a with clock := a.clock + 1 }
      if isFirst then
        let r := dispatchOutcome sched oracle fileItem a1
        if r.2.1 then r.1
        else runLoop sched oracle rest (r.2.2 || abortQueue) false r.1
      else
        if sched a1.clock then { a1 with clock := a1.clock + 1 }
        else
          let a2 := { a1 with clock := a1.clock + 1 }
          if sched a2.clock then { a2 with clock := a2.clock + 1 }
          else
            let a3 := { a2 with clock := a2.clock + 1 }
            let r := dispatchOutcome sched oracle fileItem a3
            if r.2.1 then r.1
            else runLoop sched oracle rest (r.2.2 || abortQueue) false r.1

/-- Function `processQueue(currentFiles)` from `src/App.tsx`: filter the snapshot to
`IDLE` items; an empty snapshot only lowers `isProcessing`; otherwise raise
`isProcessing`, clear the ready notification and run the sequential loop. -/
def processQueue (sched : Nat → Bool) (oracle : Nat → ExtractResult)
    (currentFiles : List AnalyzedFile) (st : QueueState) : RunAcc :=
  let filesToProcess := currentFiles.filter fun f => decide (f.status = AnalysisStatus.IDLE)
  if filesToProcess.isEmpty then
    { st := { st with isProcessing := false }, trace := [], mutTimes := [],
      clock := 0, timerMs := none }
  else
    runLoop sched oracle filesToProcess false true
      { st := { st with isProcessing := true, unlockNotification := false },
        trace := [], mutTimes := [], clock := 0, timerMs := none }

/-- The body of the 15-second `setTimeout` scheduled by the quota branch: if
the abort ref is set in the meantime nothing happens, otherwise the cooldown
ends and the ready notification is raised. -/
def fireCooldownTimer (abortNow : Bool) (st : QueueState) : QueueState :=
  if abortNow then st
  else { st with isCooldown := false, unlockNotification := true }

/-- Function `handleRetryProcessing`: clear the ready notification and re-invoke
`processQueue` on the current item set. -/
def handleRetryProcessing (sched : Nat → Bool) (oracle : Nat → ExtractResult)
    (files : List AnalyzedFile) (st : QueueState) : RunAcc :=
  processQueue sched oracle files { st with unlockNotification := false }

/-- Function `executeClearAll`: set the abort ref, empty the item set and reset the
flags.  Returns the new state together with the abort-ref value it wrote. -/
def executeClearAll (_st : QueueState) : QueueState × Bool :=
  ({ files := [], isProcessing := false, isCooldown := false, unlockNotification := true },
    true)

/-- Function `handleDelete`: unconditional removal by id. -/
def handleDelete (i : Nat) (files : List AnalyzedFile) : List AnalyzedFile :=
  files.filter fun f => decide (f.id ≠ i)

/-- Outcome of the `unlockPdf` collaborator: a replacement file token, or a
thrown incorrect-password failure. -/
inductive UnlockResult
  | success (newFile : Nat)
  | failure
deriving DecidableEq, Repr

/-- Result of `handleUnlock`: the new item set, and whether a fresh
`processQueue` pass was scheduled (the `setTimeout` on the success path). -/
structure UnlockOutcome where
  files : List AnalyzedFile
  triggersQueue : Bool
deriving DecidableEq, Repr

/-- Function `handleUnlock(id, password)` from `src/App.tsx`: a missing id is a
no-op; on collaborator success the file is replaced, the status reset to
`IDLE`, the error message cleared, and a fresh queue pass scheduled; on
failure only the incorrect-password notice is written. -/
def handleUnlock (i : Nat) (res : UnlockResult) (files : List AnalyzedFile) : UnlockOutcome :=
  if (files.find? fun f => decide (f.id = i)).isNone then
    { files := files, triggersQueue := false }
  else
    match res with
    | UnlockResult.success newFile =>
      { files := files.map fun f =>
          if f.id = i then
            { f with file := newFile, status := AnalysisStatus.IDLE, errorMessage := none }
          else f,
        triggersQueue := true }
    | UnlockResult.failure =>
      { files := files.map fun f =>
          if f.id = i then
            { f with errorMessage := some "Senha incorreta. Tente novamente." }
          else f,
        triggersQueue := false }

/-- A partial record of `AnalyzedFile` fields, modelling the
`Partial<AnalyzedFile>` argument of `handleUpdate`; `some v` means the field
is present in the update object. -/
structure FileUpdates where
  file : Option Nat := none
  docType : Option String := none
  status : Option AnalysisStatus := none
  data : Option (Option ExtractedData) := none
  errorMessage : Option (Option String) := none
deriving DecidableEq, Repr

/-- The JS spread `{ ...f, ...updates }`. -/
def applyUpdates (u : FileUpdates) (f : AnalyzedFile) : AnalyzedFile :=
  { f with
    file := u.file.getD f.file,
    docType := u.docType.getD f.docType,
    status := u.status.getD f.status,
    data := u.data.getD f.data,
    errorMessage := u.errorMessage.getD f.errorMessage }

/-- Function `handleUpdate(id, updates)`: direct field edit by id. -/
def handleUpdate (i : Nat) (u : FileUpdates) (files : List AnalyzedFile) : List AnalyzedFile :=
  files.map fun f => if f.id = i then applyUpdates u f else f

/-- The update object sent by the file card when the user saves a manual
edit: the (non-null) edited data and the locally selected document type. -/
def editSaveUpdates (d : ExtractedData) (t : String) : FileUpdates :=
  { data := some (some d), docType := some t }

/-- Function `handleTypeChange`: bulk reassignment of `docType` on every item. -/
def handleTypeChange (newType : String) (files : List AnalyzedFile) : List AnalyzedFile :=
  files.map fun f => { f with docType := newType }

/-- One freshly created item of `handleFilesSelected`: `IDLE`, no data. -/
def mkNewFile (i fileTok : Nat) (name docType : String) : AnalyzedFile :=
  { id := i, file := fileTok, originalName := name, docType := docType,
    status := AnalysisStatus.IDLE, data := none, errorMessage := none }

/-- The batch of items created by `handleFilesSelected` from the selected
files, each given as an id, a blob token and a display name. -/
def newFilesOf (specs : List (Nat × Nat × String)) (docType : String) : List AnalyzedFile :=
  specs.map fun s => mkNewFile s.1 s.2.1 s.2.2 docType

/-! ### Filename projection (download handler) -/

/-- The characters stripped by the sanitizing regex. -/
def forbiddenChars : List Char :=
  ['\\', '/', ':', '*', '?', '"', '<', '>', '|']

/-- Sanitizer `.replace(/[\\/:*?"<>|]/g, '').trim().toUpperCase()`. -/
def sanitizeComponent (s : String) : String :=
  toUpperCase (trimString (String.mk (s.data.filter fun c => decide (c ∉ forbiddenChars))))

/-- Amount sanitizer `value.replace(/\./g, '')`: drop the grouping dots, keep the comma. -/
def sanitizeValue (s : String) : String :=
  String.mk (s.data.filter fun c => decide (c ≠ '.'))

/-- The category display label: `nota_fiscal` becomes the two-word label,
any other category is simply upper-cased. -/
def typeLabel (docType : String) : String :=
  if docType = "nota_fiscal" then "NOTA FISCAL" else toUpperCase docType

/-- Extension extraction `originalName.split('.').pop()`. -/
def fileExtension (name : String) : String :=
  (name.splitOn ".").getLastD ""

/-- The filename computed by the download handler for a completed item: the
date, the sanitized beneficiary, the sanitized document number when it is a
non-empty string sanitizing to a non-empty part, the value without grouping
dots and the category label, joined by underscores, plus the original
extension. -/
def downloadName (d : ExtractedData) (docType originalName : String) : String :=
  let safeBeneficiary := sanitizeComponent d.beneficiary
  let safeValue := sanitizeValue d.value
  let safeDocNumber :=
    match d.docNumber with
    | some s => if s = "" then "" else sanitizeComponent s
    | none => ""
  let ext := fileExtension originalName
  let nameParts := [d.date, safeBeneficiary]
  let nameParts := if safeDocNumber = "" then nameParts else nameParts ++ [safeDocNumber]
  let nameParts := nameParts ++ [safeValue, typeLabel docType]
  String.intercalate "_" nameParts ++ "." ++ ext

/-- The filename projection as worded by the specification: parts composed
in the fixed order date, sanitized payee, sanitized document number when
present, amount without grouping separators, category label; underscore
joined; original extension appended. -/
def specProjectedName (d : ExtractedData) (docType originalName : String) : String :=
  let docPart :=
    match d.docNumber with
    | some s => [sanitizeComponent s]
    | none => []
  String.intercalate "_"
      ([d.date, sanitizeComponent d.beneficiary] ++ docPart ++
        [sanitizeValue d.value, typeLabel docType]) ++
    "." ++ fileExtension originalName

/-! ### Invariants -/

/-- The data-model invariant of the specification: `extracted` is non-null
exactly on `Complete` items. -/
def dataInvariant (files : List AnalyzedFile) : Prop :=
  ∀ f ∈ files, (f.data ≠ none ↔ f.status = AnalysisStatus.COMPLETE)

instance : DecidablePred dataInvariant := fun files =>
  inferInstanceAs (Decidable (∀ f ∈ files, _ ↔ _))

/-- The claimed error-message invariant: `errorMessage` set exactly on
`Error` items. -/
def errorIffInvariant (files : List AnalyzedFile) : Prop :=
  ∀ f ∈ files, (f.errorMessage ≠ none ↔ f.status = AnalysisStatus.ERROR)

instance : DecidablePred errorIffInvariant := fun files =>
  inferInstanceAs (Decidable (∀ f ∈ files, _ ↔ _))

/-- Every item of `files` whose id lies in `ids` carries no extracted
data (the eligible snapshot items still waiting for processing). -/
def idleDataFree (ids : List Nat) (files : List AnalyzedFile) : Prop :=
  ∀ f ∈ files, f.id ∈ ids → f.data = none

/-- Well-formed run traces over the snapshot id list `ids`: a prefix of the
snapshot is processed in order, each item's dispatch immediately followed by
the application of its outcome, except that a cancelled run may end on a
dispatch whose outcome was suppressed. -/
def isRunTrace : List Nat → List QueueEvent → Bool
  | _, [] => true
  | [], _ :: _ => false
  | i :: _, [QueueEvent.dispatch j] => decide (j = i)
  | i :: is, QueueEvent.dispatch j :: QueueEvent.applied j' :: tr =>
    decide (j = i) && decide (j' = i) && isRunTrace is tr
  | _ :: _, QueueEvent.dispatch _ :: QueueEvent.dispatch _ :: _ => false
  | _ :: _, QueueEvent.applied _ :: _ => false

/-- The cumulative per-item effect of one loop iteration on the item set
when no abort suppresses anything: `PROCESSING` marking followed by the
outcome update. -/
def applyItemOutcome (oracle : Nat → ExtractResult) (x : AnalyzedFile)
    (files : List AnalyzedFile) : List AnalyzedFile :=
  match oracle x.id with
  | ExtractResult.success d => applySuccessUpdate x.id d (applyProcessingUpdate x.id files)
  | ExtractResult.failure msg =>
    applyFailureUpdate x.id (classifyFailure msg) (applyProcessingUpdate x.id files)

/-! ### Concrete fixtures for evaluated checks -/

/-- Sample extracted data used in concrete checks. -/
def sampleData : ExtractedData :=
  { date := "25122024", beneficiary := "JOAO SILVA", value := "1.234,56",
    originalValue := "1.234,56" }

/-- Concrete item in a given state, used in concrete checks. -/
def sampleItem (i : Nat) (st : AnalysisStatus) : AnalyzedFile :=
  { id := i, file := i, originalName := "doc.pdf", docType := "comprovante",
    status := st, data := none }

/-- Item set with three freshly enqueued items. -/
def threeIdle : List AnalyzedFile :=
  [sampleItem 1 AnalysisStatus.IDLE, sampleItem 2 AnalysisStatus.IDLE,
    sampleItem 3 AnalysisStatus.IDLE]

/-- Extraction oracle succeeding on every item. -/
def oracleAllOk : Nat → ExtractResult := fun _ => ExtractResult.success sampleData

/-- Extraction oracle failing with a quota message on item 2. -/
def oracleQuotaAt2 : Nat → ExtractResult := fun i =>
  if i = 2 then ExtractResult.failure "429 quota exceeded"
  else ExtractResult.success sampleData

/-- Abort schedule of a run that is never cancelled. -/
def neverAbort : Nat → Bool := fun _ => false

/-- Abort schedule of a run cancelled at clock `T`. -/
def abortFrom (T : Nat) : Nat → Bool := fun t => decide (T ≤ t)

/-- Initial renamer state over an item set. -/
def initialState (fs : List AnalyzedFile) : QueueState :=
  { files := fs, isProcessing := false, isCooldown := false, unlockNotification := false }

/-! ### Basic lemmas about the guarded update and one loop iteration -/

theorem guardedUpdate_of_false (sched : Nat → Bool)
    (upd : List AnalyzedFile → List AnalyzedFile) (ev : List QueueEvent) (a : RunAcc)
    (h : sched a.clock = false) :
    guardedUpdate sched upd ev a =
      { a with
        st := { a.st with files := upd a.st.files },
        trace := a.trace ++ ev,
        mutTimes := a.mutTimes ++ [a.clock],
        clock := a.clock + 1 } := by
  simp [guardedUpdate, h]

theorem runLoop_nil_eq (sched : Nat → Bool) (oracle : Nat → ExtractResult)
    (aq isF : Bool) (a : RunAcc) (h : sched a.clock = false) :
    runLoop sched oracle [] aq isF a =
      { a with
        clock := a.clock + 1,
        st := { a.st with
          isProcessing := false,
          unlockNotification := if aq then a.st.unlockNotification else true } } := by
  simp [runLoop, h]

theorem runLoop_cons_step (sched : Nat → Bool) (oracle : Nat → ExtractResult)
    (x : AnalyzedFile) (rest : List AnalyzedFile) (isF : Bool) (a : RunAcc)
    (hs : ∀ t, sched t = false) (hq : outcomeIsQuota (oracle x.id) = false) :
    runLoop sched oracle (x :: rest) false isF a =
      runLoop sched oracle rest false false
        { st := { a.st with files := applyItemOutcome oracle x a.st.files },
          trace := a.trace ++ [QueueEvent.dispatch x.id, QueueEvent.applied x.id],
          mutTimes := a.mutTimes ++
            (if isF then [a.clock + 1, a.clock + 3] else [a.clock + 1, a.clock + 5]),
          clock := a.clock + (if isF then 4 else 6),
          timerMs := a.timerMs } := by
  cases h : oracle x.id with
  | success d =>
    cases isF <;>
      simp [runLoop, dispatchOutcome, guardedUpdate, hs, h, applyItemOutcome]
  | failure msg =>
    have hq2 : (classifyFailure msg).isQuotaError = false := by
      simpa [outcomeIsQuota, h] using hq
    cases isF <;>
      simp [runLoop, dispatchOutcome, guardedUpdate, hs, h, applyItemOutcome, hq2]

theorem runLoop_cons_quota (sched : Nat → Bool) (oracle : Nat → ExtractResult)
    (x : AnalyzedFile) (rest : List AnalyzedFile) (isF : Bool) (a : RunAcc)
    (hs : ∀ t, sched t = false) (msg : String) (ho : oracle x.id = ExtractResult.failure msg)
    (hq : (classifyFailure msg).isQuotaError = true) :
    runLoop sched oracle (x :: rest) false isF a =
      { st := { a.st with
          files := applyFailureUpdate x.id (classifyFailure msg)
            (applyProcessingUpdate x.id a.st.files),
          isProcessing := false,
          isCooldown := true },
        trace := a.trace ++ [QueueEvent.dispatch x.id, QueueEvent.applied x.id],
        mutTimes := a.mutTimes ++
          (if isF then [a.clock + 1, a.clock + 3] else [a.clock + 1, a.clock + 5]),
        clock := a.clock + (if isF then 4 else 6),
        timerMs := some 15000 } := by
  cases isF <;>
    simp [runLoop, dispatchOutcome, guardedUpdate, hs, ho, hq]

/-- Trace of a fully clean run: no abort, no quota failure.  Every snapshot
item is dispatched and its outcome applied, in order. -/
theorem runLoop_trace_clean (sched : Nat → Bool) (oracle : Nat → ExtractResult)
    (hs : ∀ t, sched t = false) :
    ∀ (todo : List AnalyzedFile) (isF : Bool) (a : RunAcc),
      (∀ f ∈ todo, outcomeIsQuota (oracle f.id) = false) →
      (runLoop sched oracle todo false isF a).trace =
        a.trace ++ todo.flatMap
          (fun f => [QueueEvent.dispatch f.id, QueueEvent.applied f.id]) := by
  intro todo
  induction todo with
  | nil =>
    intro isF a _
    rw [runLoop_nil_eq sched oracle false isF a (hs _)]
    simp
  | cons x rest ih =>
    intro isF a hq
    rw [runLoop_cons_step sched oracle x rest isF a hs (hq x (by simp))]
    rw [ih false _ (fun f hf => hq f (List.mem_cons_of_mem _ hf))]
    simp

/-- Full description of a run that hits its first quota failure at item `x`
after a clean prefix `good`: trace, final item set, flags and the scheduled
cooldown timer. -/
theorem runLoop_quota_run (sched : Nat → Bool) (oracle : Nat → ExtractResult)
    (hs : ∀ t, sched t = false) (x : AnalyzedFile) (msg : String)
    (ho : oracle x.id = ExtractResult.failure msg)
    (hq : (classifyFailure msg).isQuotaError = true) :
    ∀ (good : List AnalyzedFile), (∀ f ∈ good, outcomeIsQuota (oracle f.id) = false) →
    ∀ (rest : List AnalyzedFile) (isF : Bool) (a : RunAcc), ∃ mt c,
      runLoop sched oracle (good ++ x :: rest) false isF a =
        { st := { files := applyFailureUpdate x.id (classifyFailure msg)
                      (applyProcessingUpdate x.id
                        (good.foldl (fun fs g => applyItemOutcome oracle g fs) a.st.files)),
                  isProcessing := false,
                  isCooldown := true,
                  unlockNotification := a.st.unlockNotification },
          trace := a.trace ++
            good.flatMap (fun f => [QueueEvent.dispatch f.id, QueueEvent.applied f.id]) ++
            [QueueEvent.dispatch x.id, QueueEvent.applied x.id],
          mutTimes := mt,
          clock := c,
          timerMs := some 15000 } := by
  intro good
  induction good with
  | nil =>
    intro _ rest isF a
    refine ⟨a.mutTimes ++ (if isF then [a.clock + 1, a.clock + 3]
      else [a.clock + 1, a.clock + 5]), a.clock + (if isF then 4 else 6), ?_⟩
    rw [List.nil_append, runLoop_cons_quota sched oracle x rest isF a hs msg ho hq]
    simp
  | cons g good' ih =>
    intro hg rest isF a
    have hgq : outcomeIsQuota (oracle g.id) = false := hg g (by simp)
    rw [List.cons_append, runLoop_cons_step sched oracle g _ isF a hs hgq]
    obtain ⟨mt, c, hrec⟩ := ih (fun f hf => hg f (List.mem_cons_of_mem _ hf)) rest false
      { st := { a.st with files := applyItemOutcome oracle g a.st.files },
        trace := a.trace ++ [QueueEvent.dispatch g.id, QueueEvent.applied g.id],
        mutTimes := a.mutTimes ++
          (if isF then [a.clock + 1, a.clock + 3] else [a.clock + 1, a.clock + 5]),
        clock := a.clock + (if isF then 4 else 6),
        timerMs := a.timerMs }
    refine ⟨mt, c, ?_⟩
    rw [hrec]
    simp

/-! ### Preservation of the data invariant -/

theorem classifyFailure_status_ne_complete (msg : String) :
    (classifyFailure msg).status ≠ AnalysisStatus.COMPLETE := by
  unfold classifyFailure
  split_ifs <;> simp

theorem dataInvariant_applyProcessingUpdate (i : Nat) (files : List AnalyzedFile)
    (hInv : dataInvariant files) (hfree : ∀ f ∈ files, f.id = i → f.data = none) :
    dataInvariant (applyProcessingUpdate i files) := by
  intro f hf
  simp only [applyProcessingUpdate, List.mem_map] at hf
  obtain ⟨g, hg, rfl⟩ := hf
  by_cases hgi : g.id = i
  · simp [hgi, hfree g hg hgi]
  · simpa [hgi] using hInv g hg

theorem dataInvariant_applySuccessUpdate (i : Nat) (d : ExtractedData)
    (files : List AnalyzedFile) (hInv : dataInvariant files) :
    dataInvariant (applySuccessUpdate i d files) := by
  intro f hf
  simp only [applySuccessUpdate, List.mem_map] at hf
  obtain ⟨g, hg, rfl⟩ := hf
  by_cases hgi : g.id = i
  · simp [hgi]
  · simpa [hgi] using hInv g hg

theorem dataInvariant_applyFailureUpdate (i : Nat) (c : FailureClass)
    (files : List AnalyzedFile) (hc : c.status ≠ AnalysisStatus.COMPLETE)
    (hInv : dataInvariant files) (hfree : ∀ f ∈ files, f.id = i → f.data = none) :
    dataInvariant (applyFailureUpdate i c files) := by
  intro f hf
  simp only [applyFailureUpdate, List.mem_map] at hf
  obtain ⟨g, hg, rfl⟩ := hf
  by_cases hgi : g.id = i
  · by_cases hcq : c.isQuotaError <;> simp [hgi, hcq, hfree g hg hgi, hc]
  · simpa [hgi] using hInv g hg

theorem idleDataFree_applyProcessingUpdate (ids : List Nat) (i : Nat)
    (files : List AnalyzedFile) (h : idleDataFree ids files) :
    idleDataFree ids (applyProcessingUpdate i files) := by
  intro f hf
  simp only [applyProcessingUpdate, List.mem_map] at hf
  obtain ⟨g, hg, rfl⟩ := hf
  by_cases hgi : g.id = i
  · simp only [hgi, if_pos]
    exact fun hm => h g hg (by rw [hgi]; exact hm)
  · simpa [hgi] using h g hg

theorem idleDataFree_applyFailureUpdate (ids : List Nat) (i : Nat) (c : FailureClass)
    (files : List AnalyzedFile) (h : idleDataFree ids files) :
    idleDataFree ids (applyFailureUpdate i c files) := by
  intro f hf
  simp only [applyFailureUpdate, List.mem_map] at hf
  obtain ⟨g, hg, rfl⟩ := hf
  by_cases hgi : g.id = i
  · simp only [hgi, if_pos]
    exact fun hm => h g hg (by rw [hgi]; exact hm)
  · simpa [hgi] using h g hg

theorem idleDataFree_applySuccessUpdate (ids : List Nat) (i : Nat) (d : ExtractedData)
    (files : List AnalyzedFile) (hi : i ∉ ids) (h : idleDataFree ids files) :
    idleDataFree ids (applySuccessUpdate i d files) := by
  intro f hf
  simp only [applySuccessUpdate, List.mem_map] at hf
  obtain ⟨g, hg, rfl⟩ := hf
  by_cases hgi : g.id = i
  · simp [hgi]
    intro hmem
    exact absurd hmem hi
  · simpa [hgi] using h g hg

theorem guardedMark_inv (sched : Nat → Bool) (i : Nat) (ids : List Nat)
    (ev : List QueueEvent) (a : RunAcc) (hInv : dataInvariant a.st.files)
    (hfree : idleDataFree (i :: ids) a.st.files) :
    dataInvariant (guardedUpdate sched (applyProcessingUpdate i) ev a).st.files ∧
      idleDataFree (i :: ids) (guardedUpdate sched (applyProcessingUpdate i) ev a).st.files := by
  rw [guardedUpdate]
  split
  · exact ⟨hInv, hfree⟩
  · refine ⟨?_, ?_⟩
    · exact dataInvariant_applyProcessingUpdate i a.st.files hInv
        (fun f hf he => hfree f hf (by simp [he]))
    · exact idleDataFree_applyProcessingUpdate (i :: ids) i a.st.files hfree

theorem dispatchOutcome_inv (sched : Nat → Bool) (oracle : Nat → ExtractResult)
    (x : AnalyzedFile) (ids : List Nat) (a : RunAcc) (hx : x.id ∉ ids)
    (hInv : dataInvariant a.st.files)
    (hfree : idleDataFree (x.id :: ids) a.st.files) :
    dataInvariant (dispatchOutcome sched oracle x a).1.st.files ∧
      idleDataFree ids (dispatchOutcome sched oracle x a).1.st.files := by
  have hfree0 : ∀ f ∈ a.st.files, f.id = x.id → f.data = none :=
    fun f hf he => hfree f hf (by simp [he])
  have hfree1 : idleDataFree ids a.st.files :=
    fun f hf hi => hfree f hf (by simp [hi])
  cases h : oracle x.id with
  | success d =>
    by_cases h1 : sched a.clock
    · simp [dispatchOutcome, h, h1]
      exact ⟨hInv, hfree1⟩
    · by_cases h2 : sched (a.clock + 1)
      · simp [dispatchOutcome, h, h1, guardedUpdate, h2]
        exact ⟨hInv, hfree1⟩
      · simp [dispatchOutcome, h, h1, guardedUpdate, h2]
        exact ⟨dataInvariant_applySuccessUpdate x.id d a.st.files hInv,
          idleDataFree_applySuccessUpdate ids x.id d a.st.files hx hfree1⟩
  | failure msg =>
    by_cases h1 : sched a.clock
    · simp [dispatchOutcome, h, h1]
      exact ⟨hInv, hfree1⟩
    · by_cases h2 : sched (a.clock + 1)
      · by_cases hcq : (classifyFailure msg).isQuotaError <;>
          · simp [dispatchOutcome, h, h1, guardedUpdate, h2, hcq]
            exact ⟨hInv, hfree1⟩
      · by_cases hcq : (classifyFailure msg).isQuotaError <;>
          · simp [dispatchOutcome, h, h1, guardedUpdate, h2, hcq]
            exact ⟨dataInvariant_applyFailureUpdate x.id (classifyFailure msg) a.st.files
                (classifyFailure_status_ne_complete msg) hInv hfree0,
              idleDataFree_applyFailureUpdate ids x.id (classifyFailure msg) a.st.files hfree1⟩

theorem runLoop_inv (sched : Nat → Bool) (oracle : Nat → ExtractResult) :
    ∀ (todo : List AnalyzedFile) (aq isF : Bool) (a : RunAcc),
      (todo.map fun f => f.id).Nodup →
      dataInvariant a.st.files →
      idleDataFree (todo.map fun f => f.id) a.st.files →
      dataInvariant (runLoop sched oracle todo aq isF a).st.files := by
  intro todo
  induction todo with
  | nil =>
    intro aq isF a _ hInv _
    unfold runLoop
    split <;> exact hInv
  | cons x rest ih =>
    intro aq isF a hnd hInv hfree
    have hnd2 : (x.id :: rest.map fun f => f.id).Nodup := by simpa using hnd
    have hx : x.id ∉ rest.map fun f => f.id := (List.nodup_cons.mp hnd2).1
    have hnd3 : (rest.map fun f => f.id).Nodup := (List.nodup_cons.mp hnd2).2
    have hfree2 : idleDataFree (x.id :: rest.map fun f => f.id) a.st.files := by
      intro f hf hi
      exact hfree f hf (by simpa using hi)
    simp only [runLoop]
    split
    · exact hInv
    · obtain ⟨hInvA, hfreeA⟩ := guardedMark_inv sched x.id (rest.map fun f => f.id) []
        { a with clock := a.clock + 1 } hInv hfree2
      split
      · obtain ⟨hdo1, hdo2⟩ := dispatchOutcome_inv sched oracle x (rest.map fun f => f.id)
          _ hx hInvA hfreeA
        split
        · exact hdo1
        · exact ih _ false _ hnd3 hdo1 hdo2
      · split
        · exact hInvA
        · split
          · exact hInvA
          · split
            · refine (dispatchOutcome_inv sched oracle x (rest.map fun f => f.id)
                _ hx ?_ ?_).1
              · exact hInvA
              · exact hfreeA
            · refine ih _ false _ hnd3 ?_ ?_
              · refine (dispatchOutcome_inv sched oracle x (rest.map fun f => f.id)
                  _ hx ?_ ?_).1
                · exact hInvA
                · exact hfreeA
              · refine (dispatchOutcome_inv sched oracle x (rest.map fun f => f.id)
                  _ hx ?_ ?_).2
                · exact hInvA
                · exact hfreeA

/-! ### Mutations only happen while the abort ref is unset -/

theorem guardedUpdate_mut (sched : Nat → Bool) (upd : List AnalyzedFile → List AnalyzedFile)
    (ev : List QueueEvent) (a : RunAcc) (h : ∀ t ∈ a.mutTimes, sched t = false) :
    ∀ t ∈ (guardedUpdate sched upd ev a).mutTimes, sched t = false := by
  rw [guardedUpdate]
  split
  · exact h
  · rename_i hneg
    intro t ht
    rcases List.mem_append.mp ht with ht2 | ht2
    · exact h t ht2
    · have : t = a.clock := by simpa using ht2
      subst this
      simpa using hneg

theorem dispatchOutcome_mut (sched : Nat → Bool) (oracle : Nat → ExtractResult)
    (x : AnalyzedFile) (a : RunAcc) (h : ∀ t ∈ a.mutTimes, sched t = false) :
    ∀ t ∈ (dispatchOutcome sched oracle x a).1.mutTimes, sched t = false := by
  cases ho : oracle x.id with
  | success d =>
    by_cases h1 : sched a.clock
    · simpa [dispatchOutcome, ho, h1] using h
    · simp only [dispatchOutcome, ho, h1]
      simp only [Bool.false_eq_true, if_false]
      exact guardedUpdate_mut sched _ _ _ h
  | failure msg =>
    by_cases h1 : sched a.clock
    · simpa [dispatchOutcome, ho, h1] using h
    · by_cases hcq : (classifyFailure msg).isQuotaError <;>
        · simp only [dispatchOutcome, ho, h1, hcq]
          simp only [Bool.false_eq_true, if_false, if_true]
          exact guardedUpdate_mut sched _ _ _ h

theorem runLoop_mut (sched : Nat → Bool) (oracle : Nat → ExtractResult) :
    ∀ (todo : List AnalyzedFile) (aq isF : Bool) (a : RunAcc),
      (∀ t ∈ a.mutTimes, sched t = false) →
      ∀ t ∈ (runLoop sched oracle todo aq isF a).mutTimes, sched t = false := by
  intro todo
  induction todo with
  | nil =>
    intro aq isF a h
    unfold runLoop
    split <;> exact h
  | cons x rest ih =>
    intro aq isF a h
    simp only [runLoop]
    split
    · exact h
    · have hmark : ∀ t ∈ (guardedUpdate sched (applyProcessingUpdate x.id) []
          { a with clock := a.clock + 1 }).mutTimes, sched t = false :=
        guardedUpdate_mut sched _ _ _ h
      split
      · split
        · exact dispatchOutcome_mut sched oracle x _ hmark
        · exact ih _ false _ (dispatchOutcome_mut sched oracle x _ hmark)
      · split
        · exact hmark
        · split
          · exact hmark
          · split
            · refine dispatchOutcome_mut sched oracle x _ ?_
              exact hmark
            · refine ih _ false _ ?_
              refine dispatchOutcome_mut sched oracle x _ ?_
              exact hmark

/-! ### Shape of the event trace under an arbitrary monotone abort schedule -/

theorem guardedUpdate_trace_nil (sched : Nat → Bool)
    (upd : List AnalyzedFile → List AnalyzedFile) (a : RunAcc) :
    (guardedUpdate sched upd [] a).trace = a.trace := by
  rw [guardedUpdate]
  split <;> simp

theorem runLoop_stuck (sched : Nat → Bool) (oracle : Nat → ExtractResult)
    (todo : List AnalyzedFile) (aq isF : Bool) (a : RunAcc) (h : sched a.clock = true) :
    (runLoop sched oracle todo aq isF a).trace = a.trace := by
  cases todo <;> simp [runLoop, h]

theorem dispatchOutcome_trace_cases (sched : Nat → Bool) (oracle : Nat → ExtractResult)
    (x : AnalyzedFile) (a : RunAcc) :
    ((dispatchOutcome sched oracle x a).1.trace = a.trace ++ [QueueEvent.dispatch x.id] ∧
      ((dispatchOutcome sched oracle x a).2.1 = true ∨
        ∃ t, sched t = true ∧ (dispatchOutcome sched oracle x a).1.clock = t + 1)) ∨
    (dispatchOutcome sched oracle x a).1.trace =
      a.trace ++ [QueueEvent.dispatch x.id, QueueEvent.applied x.id] := by
  cases ho : oracle x.id with
  | success d =>
    by_cases h1 : sched a.clock
    · left
      constructor
      · simp [dispatchOutcome, ho, h1]
      · left
        simp [dispatchOutcome, ho, h1]
    · by_cases h2 : sched (a.clock + 1)
      · left
        constructor
        · simp [dispatchOutcome, ho, h1, guardedUpdate, h2]
        · right
          exact ⟨a.clock + 1, h2, by simp [dispatchOutcome, ho, h1, guardedUpdate, h2]⟩
      · right
        simp [dispatchOutcome, ho, h1, guardedUpdate, h2]
  | failure msg =>
    by_cases h1 : sched a.clock
    · left
      constructor
      · simp [dispatchOutcome, ho, h1]
      · left
        simp [dispatchOutcome, ho, h1]
    · by_cases h2 : sched (a.clock + 1)
      · by_cases hcq : (classifyFailure msg).isQuotaError
        · left
          constructor
          · simp [dispatchOutcome, ho, h1, guardedUpdate, h2, hcq]
          · left
            simp [dispatchOutcome, ho, h1, guardedUpdate, h2, hcq]
        · left
          constructor
          · simp [dispatchOutcome, ho, h1, guardedUpdate, h2, hcq]
          · right
            exact ⟨a.clock + 1, h2, by simp [dispatchOutcome, ho, h1, guardedUpdate, h2, hcq]⟩
      · by_cases hcq : (classifyFailure msg).isQuotaError <;>
          · right
            simp [dispatchOutcome, ho, h1, guardedUpdate, h2, hcq]

theorem afterDispatch_shape (sched : Nat → Bool) (oracle : Nat → ExtractResult)
    (hm : ∀ t, sched t = true → sched (t + 1) = true) (x : AnalyzedFile)
    (rest : List AnalyzedFile) (aq : Bool) (a : RunAcc) (ACC : RunAcc)
    (hACC : ACC.trace = a.trace)
    (ih : ∀ (aq2 isF2 : Bool) (a2 : RunAcc), ∃ tr,
      (runLoop sched oracle rest aq2 isF2 a2).trace = a2.trace ++ tr ∧
      isRunTrace (rest.map fun f => f.id) tr = true) :
    ∃ tr,
      (if (dispatchOutcome sched oracle x ACC).2.1 = true
        then (dispatchOutcome sched oracle x ACC).1
        else runLoop sched oracle rest ((dispatchOutcome sched oracle x ACC).2.2 || aq) false
          (dispatchOutcome sched oracle x ACC).1).trace = a.trace ++ tr ∧
      isRunTrace (x.id :: rest.map fun f => f.id) tr = true := by
  rcases dispatchOutcome_trace_cases sched oracle x ACC with ⟨htr, hrest⟩ | htr
  · by_cases hstop : (dispatchOutcome sched oracle x ACC).2.1 = true
    · refine ⟨[QueueEvent.dispatch x.id], ?_, by simp [isRunTrace]⟩
      rw [if_pos hstop, htr, hACC]
    · rcases hrest with hstop2 | ⟨t, hst, hclk⟩
      · exact absurd hstop2 hstop
      · refine ⟨[QueueEvent.dispatch x.id], ?_, by simp [isRunTrace]⟩
        rw [if_neg hstop,
          runLoop_stuck sched oracle rest _ false _ (by rw [hclk]; exact hm t hst),
          htr, hACC]
  · by_cases hstop : (dispatchOutcome sched oracle x ACC).2.1 = true
    · refine ⟨[QueueEvent.dispatch x.id, QueueEvent.applied x.id], ?_, by simp [isRunTrace]⟩
      rw [if_pos hstop, htr, hACC]
    · obtain ⟨tr2, htr2, hsh2⟩ := ih ((dispatchOutcome sched oracle x ACC).2.2 || aq) false
        (dispatchOutcome sched oracle x ACC).1
      refine ⟨QueueEvent.dispatch x.id :: QueueEvent.applied x.id :: tr2, ?_, ?_⟩
      · rw [if_neg hstop, htr2, htr, hACC]
        simp
      · simpa [isRunTrace] using hsh2

theorem runLoop_trace_shape (sched : Nat → Bool) (oracle : Nat → ExtractResult)
    (hm : ∀ t, sched t = true → sched (t + 1) = true) :
    ∀ (todo : List AnalyzedFile) (aq isF : Bool) (a : RunAcc), ∃ tr,
      (runLoop sched oracle todo aq isF a).trace = a.trace ++ tr ∧
      isRunTrace (todo.map fun f => f.id) tr = true := by
  intro todo
  induction todo with
  | nil =>
    intro aq isF a
    refine ⟨[], ?_, rfl⟩
    unfold runLoop
    split <;> simp
  | cons x rest ih =>
    intro aq isF a
    simp only [runLoop]
    split
    · exact ⟨[], by simp, rfl⟩
    · split
      · refine afterDispatch_shape sched oracle hm x rest aq a _ ?_ ih
        rw [guardedUpdate_trace_nil]
      · split
        · refine ⟨[], ?_, rfl⟩
          show (guardedUpdate sched (applyProcessingUpdate x.id) []
            { a with clock := a.clock + 1 }).trace = a.trace ++ []
          rw [guardedUpdate_trace_nil]
          simp
        · split
          · refine ⟨[], ?_, rfl⟩
            show (guardedUpdate sched (applyProcessingUpdate x.id) []
              { a with clock := a.clock + 1 }).trace = a.trace ++ []
            rw [guardedUpdate_trace_nil]
            simp
          · refine afterDispatch_shape sched oracle hm x rest aq a _ ?_ ih
            show (guardedUpdate sched (applyProcessingUpdate x.id) []
              { a with clock := a.clock + 1 }).trace = a.trace
            rw [guardedUpdate_trace_nil]

/-! ### Further helper lemmas -/

theorem update_map_id (i : Nat) (g : AnalyzedFile → AnalyzedFile)
    (files : List AnalyzedFile) (h : ∀ f ∈ files, f.id ≠ i) :
    (files.map fun f => if f.id = i then g f else f) = files := by
  have h2 : ∀ f ∈ files, (if f.id = i then g f else f) = id f :=
    fun f hf => by simp [h f hf]
  rw [List.map_congr_left h2, List.map_id]

theorem handleDelete_id_ne (i : Nat) (files : List AnalyzedFile) :
    ∀ f ∈ handleDelete i files, f.id ≠ i := by
  intro f hf
  have := (List.mem_filter.mp hf).2
  simpa using this

theorem classifyFailure_quota_eq (msg : String)
    (h : (classifyFailure msg).isQuotaError = true) :
    classifyFailure msg =
      { status := AnalysisStatus.ERROR,
        errorMessage := "Pausado: Limite da API atingido.", isQuotaError := true } := by
  unfold classifyFailure at h ⊢
  split_ifs at h ⊢
  simp_all

theorem applyFailureUpdate_quota_idle (i : Nat) (c : FailureClass)
    (hc : c.isQuotaError = true) (files : List AnalyzedFile) :
    ∀ f ∈ applyFailureUpdate i c files, f.id = i → f.status = AnalysisStatus.IDLE := by
  intro f hf
  simp only [applyFailureUpdate, List.mem_map] at hf
  obtain ⟨g, hg, rfl⟩ := hf
  by_cases hgi : g.id = i <;> simp [hgi, hc]

theorem classifyFailure_password :
    classifyFailure "PASSWORD_REQUIRED" =
      { status := AnalysisStatus.WAITING_PASSWORD, errorMessage := "",
        isQuotaError := false } := by
  rfl

theorem classifyFailure_other (msg : String) (hp : msg ≠ "PASSWORD_REQUIRED")
    (hq : isQuotaMessage msg = false) (hne : msg ≠ "") :
    classifyFailure msg =
      { status := AnalysisStatus.ERROR, errorMessage := msg, isQuotaError := false } := by
  unfold classifyFailure fallbackMessage
  simp [hp, hq, hne]

theorem dispatchOutcome_files_failure (sched : Nat → Bool) (oracle : Nat → ExtractResult)
    (x : AnalyzedFile) (a : RunAcc) (msg : String) (hs : ∀ t, sched t = false)
    (ho : oracle x.id = ExtractResult.failure msg) :
    (dispatchOutcome sched oracle x a).1.st.files =
      applyFailureUpdate x.id (classifyFailure msg) a.st.files := by
  by_cases hcq : (classifyFailure msg).isQuotaError <;>
    simp [dispatchOutcome, ho, hs, guardedUpdate, hcq]

theorem processQueue_mut (sched : Nat → Bool) (oracle : Nat → ExtractResult)
    (currentFiles : List AnalyzedFile) (st : QueueState) :
    ∀ t ∈ (processQueue sched oracle currentFiles st).mutTimes, sched t = false := by
  simp only [processQueue]
  split
  · simp
  · exact runLoop_mut sched oracle _ false true _ (by simp)

/-! ### Claim theorems -/

/-- C9: invoking `runQueue` (and `retryQueue`, which merely clears the
notification and re-invokes it) when no item is `IDLE` is a safe no-op: the
item set is untouched, nothing is dispatched, no mutation is applied, no
cooldown timer is scheduled, and the run state is not flipped to Running
(`isProcessing` remains `false`). -/
theorem runQueue_no_idle_noop (sched : Nat → Bool) (oracle : Nat → ExtractResult)
    (currentFiles : List AnalyzedFile) (st : QueueState)
    (h : currentFiles.filter (fun f => decide (f.status = AnalysisStatus.IDLE)) = []) :
    (processQueue sched oracle currentFiles st).st.files = st.files ∧
    (processQueue sched oracle currentFiles st).st.isProcessing = false ∧
    (processQueue sched oracle currentFiles st).st.isCooldown = st.isCooldown ∧
    (processQueue sched oracle currentFiles st).trace = [] ∧
    (processQueue sched oracle currentFiles st).mutTimes = [] ∧
    (processQueue sched oracle currentFiles st).timerMs = none ∧
    (handleRetryProcessing sched oracle currentFiles st).st.files = st.files ∧
    (handleRetryProcessing sched oracle currentFiles st).st.isProcessing = false ∧
    (handleRetryProcessing sched oracle currentFiles st).trace = [] := by
  simp [processQueue, handleRetryProcessing, h]

/-- Witness for C9 on a concrete set with no `IDLE` item. -/
theorem runQueue_no_idle_noop_witness :
    (processQueue neverAbort oracleAllOk
        [sampleItem 1 AnalysisStatus.ERROR] (initialState [sampleItem 1 AnalysisStatus.ERROR])
      ).st.files = [sampleItem 1 AnalysisStatus.ERROR] ∧
    (processQueue neverAbort oracleAllOk
        [sampleItem 1 AnalysisStatus.ERROR] (initialState [sampleItem 1 AnalysisStatus.ERROR])
      ).trace = [] :=
  ⟨(runQueue_no_idle_noop neverAbort oracleAllOk _ _ (by decide)).1,
    (runQueue_no_idle_noop neverAbort oracleAllOk _ _ (by decide)).2.2.2.1⟩

/-- C8: once `handleDelete` removed an item, the engine's per-item updates
for that id never reintroduce it: on any item set containing no item with
the id, the success, failure, and processing-marking updates are identity,
and in particular on a freshly deleted set. -/
theorem deleted_item_not_resurrected (i : Nat) (d : ExtractedData) (c : FailureClass)
    (files : List AnalyzedFile) (h : ∀ f ∈ files, f.id ≠ i) :
    (applySuccessUpdate i d files = files ∧
      applyFailureUpdate i c files = files ∧
      applyProcessingUpdate i files = files) ∧
    ∀ files2 : List AnalyzedFile,
      applySuccessUpdate i d (handleDelete i files2) = handleDelete i files2 ∧
      applyFailureUpdate i c (handleDelete i files2) = handleDelete i files2 ∧
      applyProcessingUpdate i (handleDelete i files2) = handleDelete i files2 := by
  refine ⟨⟨?_, ?_, ?_⟩, fun files2 => ⟨?_, ?_, ?_⟩⟩
  · exact update_map_id i _ files h
  · exact update_map_id i _ files h
  · exact update_map_id i _ files h
  · exact update_map_id i _ _ (handleDelete_id_ne i files2)
  · exact update_map_id i _ _ (handleDelete_id_ne i files2)
  · exact update_map_id i _ _ (handleDelete_id_ne i files2)

/-- Witness for C8 on a concrete one-item set without the deleted id. -/
theorem deleted_item_not_resurrected_witness :
    applySuccessUpdate 7 sampleData [sampleItem 1 AnalysisStatus.PROCESSING] =
      [sampleItem 1 AnalysisStatus.PROCESSING] :=
  (deleted_item_not_resurrected 7 sampleData
    { status := AnalysisStatus.ERROR, errorMessage := "x", isQuotaError := false }
    [sampleItem 1 AnalysisStatus.PROCESSING] (by decide)).1.1

/-- C6: manual unlock.  When the collaborator succeeds the item's file is
replaced, its state set to `IDLE`, its error message cleared, and a fresh
queue pass is triggered; when it fails, only the incorrect-password notice
is written — every item's status (and every other field) is left unchanged —
and no queue pass is triggered. -/
theorem unlock_success_and_failure (i nf : Nat) (files : List AnalyzedFile)
    (h : (files.find? fun f => decide (f.id = i)).isSome) :
    handleUnlock i (UnlockResult.success nf) files =
      { files := files.map fun f =>
          if f.id = i then
            { f with file := nf, status := AnalysisStatus.IDLE, errorMessage := none }
          else f,
        triggersQueue := true } ∧
    handleUnlock i UnlockResult.failure files =
      { files := files.map fun f =>
          if f.id = i then
            { f with errorMessage := some "Senha incorreta. Tente novamente." }
          else f,
        triggersQueue := false } ∧
    ((handleUnlock i UnlockResult.failure files).files.map fun f => f.status) =
      (files.map fun f => f.status) ∧
    ((handleUnlock i UnlockResult.failure files).files.map fun f => f.data) =
      (files.map fun f => f.data) := by
  have h2 : (files.find? fun f => decide (f.id = i)).isNone = false := by
    rcases hf : files.find? fun f => decide (f.id = i) with _ | v
    · rw [hf] at h
      simp at h
    · rw [hf]
      rfl
  refine ⟨by simp [handleUnlock, h2], by simp [handleUnlock, h2], ?_, ?_⟩
  · simp only [handleUnlock, h2, Bool.false_eq_true, if_false, List.map_map]
    refine List.map_congr_left fun f _ => ?_
    by_cases hfi : f.id = i <;> simp [hfi]
  · simp only [handleUnlock, h2, Bool.false_eq_true, if_false, List.map_map]
    refine List.map_congr_left fun f _ => ?_
    by_cases hfi : f.id = i <;> simp [hfi]

/-- Witness for C6 on a concrete waiting item. -/
theorem unlock_success_and_failure_witness :
    (handleUnlock 1 UnlockResult.failure
      [sampleItem 1 AnalysisStatus.WAITING_PASSWORD]).files.map (fun f => f.status) =
      [AnalysisStatus.WAITING_PASSWORD] :=
  ((unlock_success_and_failure 1 9
    [sampleItem 1 AnalysisStatus.WAITING_PASSWORD] (by decide)).2.2.1).trans (by decide)

/-- C5: classification of a failed extraction.  The distinguished password
signal sends the processed item to `WAITING_PASSWORD` with the error message
cleared; a failure that is neither the password signal nor a quota signal
sends it to `ERROR` carrying the failure's message text.  The last conjunct
ties the update to the engine's outcome step under no cancellation. -/
theorem failure_classification (i : Nat) (files : List AnalyzedFile) (msg : String)
    (hp : msg ≠ "PASSWORD_REQUIRED") (hq : isQuotaMessage msg = false) (hne : msg ≠ "") :
    applyFailureUpdate i (classifyFailure "PASSWORD_REQUIRED") files =
      (files.map fun f =>
        if f.id = i then
          { f with status := AnalysisStatus.WAITING_PASSWORD, errorMessage := none }
        else f) ∧
    applyFailureUpdate i (classifyFailure msg) files =
      (files.map fun f =>
        if f.id = i then
          { f with status := AnalysisStatus.ERROR, errorMessage := some msg }
        else f) ∧
    ∀ (sched : Nat → Bool) (oracle : Nat → ExtractResult) (x : AnalyzedFile) (a : RunAcc),
      (∀ t, sched t = false) → oracle x.id = ExtractResult.failure msg →
      (dispatchOutcome sched oracle x a).1.st.files =
        applyFailureUpdate x.id (classifyFailure msg) a.st.files := by
  refine ⟨?_, ?_, fun sched oracle x a hs ho => dispatchOutcome_files_failure
    sched oracle x a msg hs ho⟩
  · rw [classifyFailure_password]
    simp [applyFailureUpdate]
  · rw [classifyFailure_other msg hp hq hne]
    simp [applyFailureUpdate]

/-- Witness for C5 on a concrete processed item and a generic failure. -/
theorem failure_classification_witness :
    applyFailureUpdate 1 (classifyFailure "Falha na análise")
        [sampleItem 1 AnalysisStatus.PROCESSING] =
      [{ sampleItem 1 AnalysisStatus.PROCESSING with
          status := AnalysisStatus.ERROR, errorMessage := some "Falha na análise" }] :=
  ((failure_classification 1 [sampleItem 1 AnalysisStatus.PROCESSING]
    "Falha na análise" (by decide) (by decide) (by decide)).2.1).trans (by decide)

/-- C7: the download filename projection is a pure total composition that
agrees with the specification's fixed order: date, sanitized payee (strip,
trim, uppercase), sanitized document number when present, amount with its
grouping dots removed (decimal comma preserved), category label (with
`nota_fiscal` mapped to the two-word label, others upper-cased), joined by
underscores, with the original extension appended.  The hypothesis excludes
a document number that is empty or sanitizes to the empty string, which the
code drops from the join. -/
theorem downloadName_matches_spec (d : ExtractedData) (docType originalName : String)
    (h : match d.docNumber with
      | none => True
      | some s => s ≠ "" ∧ sanitizeComponent s ≠ "") :
    downloadName d docType originalName = specProjectedName d docType originalName := by
  cases hd : d.docNumber with
  | none => simp [downloadName, specProjectedName, hd]
  | some s =>
    rw [hd] at h
    have h2 : s ≠ "" ∧ sanitizeComponent s ≠ "" := h
    simp [downloadName, specProjectedName, hd, h2.1, h2.2]

/-- Witness for C7 on the specification's sample fields. -/
theorem downloadName_matches_spec_witness :
    downloadName
        { sampleData with beneficiary := "joao / silva", docNumber := some "NF 77" }
        "nota_fiscal" "doc.v2.pdf" =
      specProjectedName
        { sampleData with beneficiary := "joao / silva", docNumber := some "NF 77" }
        "nota_fiscal" "doc.v2.pdf" :=
  downloadName_matches_spec _ "nota_fiscal" "doc.v2.pdf" (by decide)

/-- C10 is refuted by the code: a failed unlock writes the
incorrect-password notice on an item that stays `WAITING_PASSWORD`, so
`errorMessage` is set on a non-`ERROR` item. -/
theorem errorMessage_iff_error_refuted :
    ¬ errorIffInvariant (handleUnlock 1 UnlockResult.failure
      [sampleItem 1 AnalysisStatus.WAITING_PASSWORD]).files := by
  decide

/-- C10 (amended): `errorMessage` is written exactly by the `ERROR`
transition among the extraction outcomes — the `WAITING_PASSWORD` transition
clears it — but the if-and-only-if fails elsewhere: the quota pause parks
the item at `IDLE` with the quota notice set, a failed unlock writes the
incorrect-password notice while the item's status is unchanged (it stays
`WAITING_PASSWORD`), and a successful extraction leaves any pre-existing
message untouched rather than clearing it. -/
theorem errorMessage_behaviour (i : Nat) (files : List AnalyzedFile) (msg : String)
    (hqm : (classifyFailure msg).isQuotaError = true) :
    (∀ f ∈ applyFailureUpdate i (classifyFailure msg) files, f.id = i →
      f.status = AnalysisStatus.IDLE ∧
      f.errorMessage = some "Pausado: Limite da API atingido.") ∧
    (∀ f ∈ applyFailureUpdate i (classifyFailure "PASSWORD_REQUIRED") files, f.id = i →
      f.status = AnalysisStatus.WAITING_PASSWORD ∧ f.errorMessage = none) ∧
    (∀ m2, m2 ≠ "PASSWORD_REQUIRED" → isQuotaMessage (fallbackMessage m2) = false →
      ∀ f ∈ applyFailureUpdate i (classifyFailure m2) files, f.id = i →
        f.status = AnalysisStatus.ERROR ∧ f.errorMessage = some (fallbackMessage m2)) ∧
    (∀ d : ExtractedData,
      ((applySuccessUpdate i d files).map fun f => f.errorMessage) =
        (files.map fun f => f.errorMessage)) ∧
    (∀ f ∈ (handleUnlock i UnlockResult.failure files).files, f.id = i →
      f.errorMessage = some "Senha incorreta. Tente novamente.") ∧
    ((handleUnlock i UnlockResult.failure files).files.map fun f => f.status) =
      (files.map fun f => f.status) := by
  have hunl : (handleUnlock i UnlockResult.failure files).files =
      (if (files.find? fun f => decide (f.id = i)).isNone = true then files
        else files.map fun f =>
          if f.id = i then
            { f with errorMessage := some "Senha incorreta. Tente novamente." }
          else f) := by
    unfold handleUnlock
    split <;> rfl
  refine ⟨?_, ?_, ?_, ?_, ?_, ?_⟩
  · intro f hf
    rw [classifyFailure_quota_eq msg hqm] at hf
    simp only [applyFailureUpdate, List.mem_map] at hf
    obtain ⟨g, hg, rfl⟩ := hf
    by_cases hgi : g.id = i <;> simp [hgi]
  · intro f hf
    rw [classifyFailure_password] at hf
    simp only [applyFailureUpdate, List.mem_map] at hf
    obtain ⟨g, hg, rfl⟩ := hf
    by_cases hgi : g.id = i <;> simp [hgi]
  · intro m2 hp hq f hf
    have hcl : classifyFailure m2 =
        { status := AnalysisStatus.ERROR, errorMessage := fallbackMessage m2,
          isQuotaError := false } := by
      unfold classifyFailure
      split_ifs with h1 h2
      · exact absurd h1 hp
      · rw [h2] at hq
        simp at hq
      · rfl
    rw [hcl] at hf
    simp only [applyFailureUpdate, List.mem_map] at hf
    obtain ⟨g, hg, rfl⟩ := hf
    by_cases hgi : g.id = i <;> simp [hgi]
  · intro d
    simp only [applySuccessUpdate, List.map_map]
    refine List.map_congr_left fun f _ => ?_
    by_cases hfi : f.id = i <;> simp [hfi]
  · intro f hf hfi
    rw [hunl] at hf
    split at hf
    · rename_i hnone
      exfalso
      have hn := Option.isNone_iff_eq_none.mp hnone
      have h3 := List.find?_eq_none.mp hn f hf
      simp [hfi] at h3
    · simp only [List.mem_map] at hf
      obtain ⟨g, hg, rfl⟩ := hf
      by_cases hgi : g.id = i
      · simp [hgi]
      · simp [hgi] at hfi
  · rw [hunl]
    split
    · rfl
    · simp only [List.map_map]
      refine List.map_congr_left fun f _ => ?_
      by_cases hfi : f.id = i <;> simp [hfi]

/-- Witness for the amended C10: a successful extraction leaves the
error-message column unchanged, shown on a concrete set. -/
theorem errorMessage_behaviour_witness :
    ((applySuccessUpdate 2 sampleData [sampleItem 2 AnalysisStatus.PROCESSING]).map
        fun f => f.errorMessage) =
      ([sampleItem 2 AnalysisStatus.PROCESSING].map fun f => f.errorMessage) :=
  (errorMessage_behaviour 2 [sampleItem 2 AnalysisStatus.PROCESSING] "quota"
    (by decide)).2.2.2.1 sampleData

/-- C1: exactly the snapshot's `IDLE` items are processed, one at a time, in
their stable snapshot order.  First conjunct: in a run with no cancellation
where no eligible item hits a quota signal, the event trace is precisely the
ordered dispatch/application blocks of the `IDLE` filter of the snapshot, so
item `N+1` is dispatched only after item `N`'s outcome was applied to the
item set.  Second conjunct: under any monotone abort schedule and any
oracle, the trace is an ordered prefix of those blocks (a cancelled run may
end on a dispatch whose suppressed outcome is never applied). -/
theorem runQueue_fifo (sched : Nat → Bool) (oracle : Nat → ExtractResult)
    (currentFiles : List AnalyzedFile) (st : QueueState)
    (hs : ∀ t, sched t = false)
    (hq : ∀ f ∈ currentFiles.filter (fun f => decide (f.status = AnalysisStatus.IDLE)),
      outcomeIsQuota (oracle f.id) = false) :
    (processQueue sched oracle currentFiles st).trace =
      (currentFiles.filter (fun f => decide (f.status = AnalysisStatus.IDLE))).flatMap
        (fun f => [QueueEvent.dispatch f.id, QueueEvent.applied f.id]) ∧
    ∀ (sched2 : Nat → Bool) (oracle2 : Nat → ExtractResult),
      (∀ t, sched2 t = true → sched2 (t + 1) = true) →
      isRunTrace
        ((currentFiles.filter (fun f => decide (f.status = AnalysisStatus.IDLE))).map
          fun f => f.id)
        (processQueue sched2 oracle2 currentFiles st).trace = true := by
  constructor
  · simp only [processQueue]
    split
    · rename_i hemp
      rw [List.isEmpty_iff.mp hemp]
      simp
    · rw [runLoop_trace_clean sched oracle hs _ true _ hq]
      simp
  · intro sched2 oracle2 hm
    simp only [processQueue]
    split
    · rename_i hemp
      rw [List.isEmpty_iff.mp hemp]
      rfl
    · obtain ⟨tr, htr, hsh⟩ := runLoop_trace_shape sched2 oracle2 hm _ false true _
      rw [htr]
      simpa using hsh

/-- Witness for C1: a three-item batch is dispatched and applied strictly in
order. -/
theorem runQueue_fifo_witness :
    (processQueue neverAbort oracleAllOk threeIdle (initialState threeIdle)).trace =
      [QueueEvent.dispatch 1, QueueEvent.applied 1, QueueEvent.dispatch 2,
        QueueEvent.applied 2, QueueEvent.dispatch 3, QueueEvent.applied 3] :=
  ((runQueue_fifo neverAbort oracleAllOk threeIdle (initialState threeIdle)
    (fun _ => rfl) (by decide)).1).trans (by decide)

/-- C3: after cancellation no further item-set mutation is applied.  First
conjunct: in a run whose abort ref becomes set at clock `T` (as
`executeClearAll` does), every applied item-set mutation happened strictly
before `T` — in particular the outcome of an extraction already in flight
that resolves after the flag is set is never applied.  Remaining conjuncts:
the scheduled cooldown auto-resume is a no-op once the abort ref is set, and
`executeClearAll` sets exactly that ref. -/
theorem cancelAll_freezes (oracle : Nat → ExtractResult)
    (currentFiles : List AnalyzedFile) (st : QueueState) (T : Nat) :
    (∀ t ∈ (processQueue (abortFrom T) oracle currentFiles st).mutTimes, t < T) ∧
    (∀ q : QueueState, fireCooldownTimer true q = q) ∧
    (∀ q q2 : QueueState, fireCooldownTimer (executeClearAll q).2 q2 = q2) := by
  refine ⟨?_, fun q => by simp [fireCooldownTimer],
    fun q q2 => by simp [fireCooldownTimer, executeClearAll]⟩
  intro t ht
  have h := processQueue_mut (abortFrom T) oracle currentFiles st t ht
  simp only [abortFrom, decide_eq_false_iff_not, not_le] at h
  exact h

/-- Witness for C3: a concrete one-item run cancelled at clock 5 applies its
mutations at clocks 1 and 3, both before the cancellation. -/
theorem cancelAll_freezes_witness :
    (3 ∈ (processQueue (abortFrom 5) oracleAllOk [sampleItem 1 AnalysisStatus.IDLE]
      (initialState [sampleItem 1 AnalysisStatus.IDLE])).mutTimes) ∧ 3 < 5 :=
  ⟨by decide, (cancelAll_freezes oracleAllOk [sampleItem 1 AnalysisStatus.IDLE]
    (initialState [sampleItem 1 AnalysisStatus.IDLE]) 5).1 3 (by decide)⟩

/-- C4: the invariant `extracted ≠ null ↔ status = COMPLETE` holds after
every operation: item creation, the bulk category change, a full queue run
(under any abort schedule and any oracle), unlock of an item that is not
complete (the card only offers unlock on `WAITING_PASSWORD` items),
deletion, and the card's edit save, which writes non-null data on a
complete item. -/
theorem extracted_iff_complete_invariant (sched : Nat → Bool)
    (oracle : Nat → ExtractResult) (files : List AnalyzedFile) (st : QueueState)
    (specs : List (Nat × Nat × String)) (t : String) (i : Nat) (res : UnlockResult)
    (d : ExtractedData) (hInv : dataInvariant files) :
    dataInvariant (files ++ newFilesOf specs t) ∧
    dataInvariant (handleTypeChange t files) ∧
    ((files.map fun f => f.id).Nodup → st.files = files →
      dataInvariant (processQueue sched oracle files st).st.files) ∧
    ((∀ f ∈ files, f.id = i → f.status ≠ AnalysisStatus.COMPLETE) →
      dataInvariant (handleUnlock i res files).files) ∧
    dataInvariant (handleDelete i files) ∧
    ((∀ f ∈ files, f.id = i → f.status = AnalysisStatus.COMPLETE) →
      dataInvariant (handleUpdate i (editSaveUpdates d t) files)) := by
  refine ⟨?_, ?_, ?_, ?_, ?_, ?_⟩
  · intro f hf
    rcases List.mem_append.mp hf with hf2 | hf2
    · exact hInv f hf2
    · simp only [newFilesOf, List.mem_map] at hf2
      obtain ⟨s, _, rfl⟩ := hf2
      simp [mkNewFile]
  · intro f hf
    simp only [handleTypeChange, List.mem_map] at hf
    obtain ⟨g, hg, rfl⟩ := hf
    simpa using hInv g hg
  · intro hnd hstf
    simp only [processQueue]
    split
    · simpa [hstf] using hInv
    · refine runLoop_inv sched oracle _ false true _ ?_ ?_ ?_
      · exact hnd.sublist ((List.filter_sublist files).map fun f => f.id)
      · simpa [hstf] using hInv
      · intro f hf hmem
        rw [hstf] at hf
        simp only [List.mem_map] at hmem
        obtain ⟨g, hg, hgid⟩ := hmem
        have hgf : g = f :=
          List.inj_on_of_nodup_map hnd ((List.mem_filter.mp hg).1) hf hgid
        have hgidle : f.status = AnalysisStatus.IDLE := by
          have := (List.mem_filter.mp hg).2
          rw [hgf] at this
          simpa using this
        rcases hdata : f.data with _ | v
        · rfl
        · exfalso
          have := (hInv f hf).mp (by simp [hdata])
          rw [hgidle] at this
          exact absurd this (by simp)
  · intro hnc
    unfold handleUnlock
    split
    · exact hInv
    · cases res with
      | success nf =>
        intro f hf
        simp only [List.mem_map] at hf
        obtain ⟨g, hg, rfl⟩ := hf
        by_cases hgi : g.id = i
        · have hgd : g.data = none := by
            rcases hdata : g.data with _ | v
            · rfl
            · exfalso
              exact absurd ((hInv g hg).mp (by simp [hdata])) (hnc g hg hgi)
          simp [hgi, hgd]
        · simpa [hgi] using hInv g hg
      | failure =>
        intro f hf
        simp only [List.mem_map] at hf
        obtain ⟨g, hg, rfl⟩ := hf
        by_cases hgi : g.id = i
        · have := hInv g hg
          simpa [hgi] using this
        · simpa [hgi] using hInv g hg
  · intro f hf
    exact hInv f (List.mem_filter.mp hf).1
  · intro hc f hf
    simp only [handleUpdate, List.mem_map] at hf
    obtain ⟨g, hg, rfl⟩ := hf
    by_cases hgi : g.id = i
    · simp [hgi, applyUpdates, editSaveUpdates, hc g hg hgi]
    · simpa [hgi] using hInv g hg

/-- Witness for C4: the invariant holds after a concrete full run on three
idle items. -/
theorem extracted_iff_complete_invariant_witness :
    dataInvariant (processQueue neverAbort oracleAllOk threeIdle
      (initialState threeIdle)).st.files :=
  (extracted_iff_complete_invariant neverAbort oracleAllOk threeIdle
    (initialState threeIdle) [] "comprovante" 1 UnlockResult.failure sampleData
    (by decide)).2.2.1 (by decide) rfl

/-- C2: quota back-off.  When, in a run with no cancellation, the eligible
snapshot is a clean prefix `good` followed by an item `x` whose extraction
fails with a quota-classified message, then: `x` ends the run at `IDLE`
(not `ERROR`), the run state becomes Cooldown (`isCooldown` raised,
`isProcessing` lowered), none of the remaining items is ever dispatched, a
15000 ms timer is scheduled, and firing that timer un-aborted leaves
Cooldown and raises the ready notification while firing it after an abort
changes nothing. -/
theorem quota_backoff (sched : Nat → Bool) (oracle : Nat → ExtractResult)
    (currentFiles : List AnalyzedFile) (st : QueueState)
    (good rest : List AnalyzedFile) (x : AnalyzedFile) (msg : String)
    (hs : ∀ t, sched t = false)
    (hsnap : currentFiles.filter (fun f => decide (f.status = AnalysisStatus.IDLE)) =
      good ++ x :: rest)
    (hgood : ∀ f ∈ good, outcomeIsQuota (oracle f.id) = false)
    (ho : oracle x.id = ExtractResult.failure msg)
    (hq : (classifyFailure msg).isQuotaError = true)
    (hnd : ((good ++ x :: rest).map fun f => f.id).Nodup) :
    (∀ f ∈ (processQueue sched oracle currentFiles st).st.files, f.id = x.id →
      f.status = AnalysisStatus.IDLE) ∧
    (processQueue sched oracle currentFiles st).st.isCooldown = true ∧
    (processQueue sched oracle currentFiles st).st.isProcessing = false ∧
    (processQueue sched oracle currentFiles st).timerMs = some 15000 ∧
    (∀ f ∈ rest, QueueEvent.dispatch f.id ∉
      (processQueue sched oracle currentFiles st).trace) ∧
    (∀ q : QueueState, fireCooldownTimer false q =
      { q with isCooldown := false, unlockNotification := true }) ∧
    (∀ q : QueueState, fireCooldownTimer true q = q) := by
  have hne : (good ++ x :: rest).isEmpty = false := by
    rcases good with _ | ⟨g, gs⟩ <;> rfl
  obtain ⟨mt, c, hrun⟩ := runLoop_quota_run sched oracle hs x msg ho hq good hgood rest true
    { st := { st with isProcessing := true, unlockNotification := false },
      trace := [], mutTimes := [], clock := 0, timerMs := none }
  have hpq : processQueue sched oracle currentFiles st =
      runLoop sched oracle (good ++ x :: rest) false true
        { st := { st with isProcessing := true, unlockNotification := false },
          trace := [], mutTimes := [], clock := 0, timerMs := none } := by
    simp only [processQueue, hsnap, hne, Bool.false_eq_true, if_false]
  rw [hpq, hrun]
  refine ⟨?_, rfl, rfl, rfl, ?_, fun q => by simp [fireCooldownTimer],
    fun q => by simp [fireCooldownTimer]⟩
  · exact applyFailureUpdate_quota_idle x.id (classifyFailure msg) hq _
  · intro f hf hmem
    have hdisj : List.Disjoint (good.map fun f => f.id) (x.id :: rest.map fun f => f.id) := by
      have := List.nodup_append.mp (by simpa using hnd)
      exact this.2.2
    have hxrest : x.id ∉ rest.map fun f => f.id := by
      have h2 : (x.id :: rest.map fun f => f.id).Nodup :=
        (List.nodup_append.mp (by simpa using hnd)).2.1
      exact (List.nodup_cons.mp h2).1
    simp only [List.nil_append, List.mem_append, List.mem_flatMap, List.mem_cons,
      List.mem_singleton] at hmem
    rcases hmem with ⟨g, hg, hev⟩ | hev
    · rcases hev with hev | hev
      · have hfg : f.id = g.id := by injection hev
        have h1 : f.id ∈ good.map fun y => y.id := by
          rw [hfg]
          exact List.mem_map_of_mem _ hg
        have h2 : f.id ∈ x.id :: rest.map fun y => y.id := by
          simp only [List.mem_cons]
          exact Or.inr (List.mem_map_of_mem _ hf)
        exact hdisj h1 h2
      · simp at hev
    · rcases hev with hev | hev
      · have hfx : f.id = x.id := by injection hev
        have h3 : x.id ∈ rest.map fun y => y.id := by
          rw [← hfx]
          exact List.mem_map_of_mem _ hf
        exact hxrest h3
      · simp at hev

/-- Witness for C2: a concrete three-item batch whose second item hits the
quota signal cools the run down with a 15 s timer. -/
theorem quota_backoff_witness :
    (processQueue neverAbort oracleQuotaAt2 threeIdle
      (initialState threeIdle)).st.isCooldown = true ∧
    (processQueue neverAbort oracleQuotaAt2 threeIdle
      (initialState threeIdle)).timerMs = some 15000 :=
  ⟨(quota_backoff neverAbort oracleQuotaAt2 threeIdle (initialState threeIdle)
      [sampleItem 1 AnalysisStatus.IDLE] [sampleItem 3 AnalysisStatus.IDLE]
      (sampleItem 2 AnalysisStatus.IDLE) "429 quota exceeded"
      (fun _ => rfl) (by decide) (by decide) (by decide) (by decide) (by decide)).2.1,
    (quota_backoff neverAbort oracleQuotaAt2 threeIdle (initialState threeIdle)
      [sampleItem 1 AnalysisStatus.IDLE] [sampleItem 3 AnalysisStatus.IDLE]
      (sampleItem 2 AnalysisStatus.IDLE) "429 quota exceeded"
      (fun _ => rfl) (by decide) (by decide) (by decide) (by decide) (by decide)).2.2.2.1⟩

end RecursosSuop
